import Mathlib

/-!
Shallow embedding of the ATS scorer of this repository
(backend/app/services/ats_scorer.py) together with the parts of
backend/app/utils/synonym_map.py and the pydantic data models it reads
(backend/app/models/jd_models.py, resume_models.py, score_models.py).

Embedding conventions:
  * Python floats are modelled as rationals; every constant the scorer uses
    is exactly representable.
  * The semantic-similarity oracle (embedding_service.semantic_similarity)
    is an external capability; it is passed in as a parameter of type
    String to String to Option of a rational, mirroring float-or-None.
  * The synonym table is loaded from data/skill_synonyms.json at run time;
    the alias-to-canonical dictionary it produces is passed in as an
    association-list parameter (the empty list is exactly the behaviour of
    the code when the data file is absent).
  * datetime.now().year is passed in as the current_year parameter.
  * Python lists are Lean lists; Python sets appear only where membership
    and cardinality are used, and are modelled as duplicate-free lists
    built in first-insertion order.
-/

namespace ATS

/-! ### Data model (mirrors the pydantic models) -/

structure ContactInfo where
  email : Option String := none
  phone : Option String := none
  linkedin : Option String := none
  location : Option String := none
deriving Repr, DecidableEq

structure ExperienceEntry where
  title : String
  company : String
  dates : String
  bullets : List String
deriving Repr, DecidableEq

structure ProjectEntry where
  name : String
  technologies : List String := []
  bullets : List String
deriving Repr, DecidableEq

structure EducationEntry where
  degree : String
  school : String
  year : Option String := none
deriving Repr, DecidableEq

structure ParsedResume where
  id : String
  file_name : String
  file_hash : String
  source : String
  drive_file_id : Option String := none
  name : String
  contact : ContactInfo
  tagline : Option String := none
  summary : Option String := none
  skills : List String := []
  experience : List ExperienceEntry := []
  projects : List ProjectEntry := []
  education : List EducationEntry := []
  certifications : List String := []
  raw_text : String
deriving Repr, DecidableEq

inductive JDType where
  | java_backend | python_backend | ai_ml | frontend | fullstack | new_grad
deriving Repr, DecidableEq

structure ParsedJD where
  id : String
  job_title : String
  company : String
  location : Option String := none
  jd_type : JDType
  required_skills : List String
  preferred_skills : List String
  required_experience_years : Option Int := none
  education : Option String := none
  key_responsibilities : List String
  keywords_to_match : List String
  raw_text : String
deriving Repr, DecidableEq

structure ScoreBreakdown where
  required_skills_pct : ℚ
  preferred_skills_pct : ℚ
  title_similarity_pct : ℚ
  experience_relevance_pct : ℚ
  years_experience_fit_pct : ℚ
  education_match_pct : ℚ
deriving Repr, DecidableEq

structure KnockoutAlert where
  skill : String
  severity : String
  message : String
deriving Repr, DecidableEq

structure ResumeScore where
  resume_id : String
  resume_name : String
  file_name : String
  overall_score : ℚ
  breakdown : ScoreBreakdown
  knockout_alerts : List KnockoutAlert := []
  matched_required_skills : List String := []
  missing_required_skills : List String := []
  matched_preferred_skills : List String := []
deriving Repr, DecidableEq

structure RankingResponse where
  jd_id : String
  rankings : List ResumeScore
  top_resume_id : String
deriving Repr, DecidableEq

/-- The similarity oracle: semantic_similarity returns a float in [0,1] or
None when the embedding model is unavailable. -/
abbrev SimOracle := String → String → Option ℚ

/-- The alias-to-canonical dictionary built by synonym_map._load. -/
abbrev AliasMap := List (String × String)

/-! ### String helpers shared by several scorer functions

The Python text primitives (str.lower, str.strip, re.split) are modelled
by structurally recursive functions over character lists, covering the
ASCII fragment the scorer feeds them. -/

/-- Python str.lower on one character (ASCII fragment). -/
def lowerChar (c : Char) : Char :=
  if 65 ≤ c.toNat && c.toNat ≤ 90 then Char.ofNat (c.toNat + 32) else c

/-- Python str.lower (ASCII fragment). -/
def pyLower (s : String) : String := String.mk (s.toList.map lowerChar)

/-- The whitespace class of Python str.strip and of the regex token for
whitespace. -/
def isPySpace (c : Char) : Bool :=
  c == ' ' || c == '\t' || c == '\n' || c == '\r' || c == '\x0B' || c == '\x0C'

/-- Python str.strip with no argument: whitespace removed from both ends. -/
def pyStrip (s : String) : String :=
  String.mk (((s.toList.dropWhile isPySpace).reverse.dropWhile isPySpace).reverse)

/-- Splitter worker: cut the character stream at every separator. -/
def splitCharsGo (p : Char → Bool) : List Char → List Char → List String
  | [], cur => [String.mk cur.reverse]
  | c :: cs, cur =>
    if p c then String.mk cur.reverse :: splitCharsGo p cs []
    else splitCharsGo p cs (c :: cur)

/-- Split a string at every character of a separator class.  A run of
separators yields empty pieces, which every caller below filters away, so
this agrees with re.split on a one-or-more character class. -/
def pySplit (p : Char → Bool) (s : String) : List String :=
  splitCharsGo p s.toList []

/-- Occurrence test of the character list n at offset i of h. -/
def occursAt (n h : List Char) (i : Nat) : Bool :=
  ((h.drop i).take n.length) == n

/-- Python substring test (the `in` operator on str). -/
def substr (needle hay : String) : Bool :=
  (List.range (hay.toList.length + 1)).any (fun i => occursAt needle.toList hay.toList i)

/-- The word-character class of the regex engine, ASCII fragment. -/
def isWordChar (c : Char) : Bool := c.isAlphanum || c == '_'

/-- Word-ness of an optional character; an absent neighbour counts as non-word. -/
def optWord : Option Char → Bool
  | some c => isWordChar c
  | none => false

/-- A word boundary sits between a word character and a non-word character. -/
def boundaryOk (outside inside : Option Char) : Bool :=
  optWord outside != optWord inside

/-- re.search of a word-bounded literal: the pattern built at line 178 of
ats_scorer.py, r backslash-b + re.escape(skill) + backslash-b, tested
against the haystack. The skill text is taken literally (re.escape). -/
def reSearchWordBound (needle hay : String) : Bool :=
  let n := needle.toList
  let h := hay.toList
  (List.range (h.length + 1)).any fun i =>
    occursAt n h i
    && boundaryOk (if i == 0 then none else h.get? (i - 1)) n.head?
    && boundaryOk (h.get? (i + n.length)) n.getLast?

/-- Python str truthiness on an optional string: None and the empty string
are falsy.  Used by the blob builder below for summary and tagline. -/
def optStrParts : Option String → List String
  | some s => if s = "" then [] else [s]
  | none => []

/-! ### synonym_map.py -/

/-- normalize_skill: lower-cased, trimmed, alias-resolved through the
dictionary (identity fallback for unknown skills). -/
def normalize_skill (al : AliasMap) (skill : String) : String :=
  let lower := pyStrip (pyLower skill)
  match al.find? (fun p => p.1 == lower) with
  | some p => p.2
  | none => lower

/-- find_matching_skill: the first candidate whose normalized form equals
the normalized target, or none. -/
def find_matching_skill (al : AliasMap) (target : String)
    (candidate_skills : List String) : Option String :=
  let target_norm := normalize_skill al target
  candidate_skills.find? (fun cs => normalize_skill al cs == target_norm)

/-! ### ats_scorer.py helpers -/

/-- The text blob _skill_in_text builds: summary, tagline, every experience
title, company and bullet, every project name, technology and bullet, all
certifications, joined with spaces and lower-cased. -/
def resumeBlob (resume : ParsedResume) : String :=
  let text_parts : List String :=
    optStrParts resume.summary
    ++ optStrParts resume.tagline
    ++ (resume.experience.flatMap fun exp => exp.title :: exp.company :: exp.bullets)
    ++ (resume.projects.flatMap fun proj => proj.name :: (proj.technologies ++ proj.bullets))
    ++ resume.certifications
  pyLower (String.intercalate " " text_parts)

/-- _skill_in_text: direct substring on the lowered skill, then substring on
the normalized form, then, for skills of length at most 3, a word-bounded
regex search. -/
def _skill_in_text (al : AliasMap) (skill : String) (resume : ParsedResume) : Bool :=
  let skill_lower := pyLower skill
  let norm := normalize_skill al skill
  let full_text := resumeBlob resume
  if substr skill_lower full_text then true
  else if substr norm full_text then true
  else if skill_lower.length ≤ 3 && reSearchWordBound skill_lower full_text then true
  else false

/-- The stop-word list of _extract_title_words. -/
def stop_words : List String :=
  ["a", "an", "the", "and", "or", "of", "in", "at", "for", "to",
   "with", "on", "by", "is", "are", "was", "were", "be", "been",
   "-", "/", "|", "&", ",", ".", "(", ")", "i", "ii", "iii", "iv", "v"]

/-- The separator class of the regex the title splitter uses:
whitespace, slash, pipe, comma, hyphen and ampersand. -/
def isTitleSplitChar (c : Char) : Bool :=
  isPySpace c || c == '/' || c == '|' || c == ',' || c == '-' || c == '&'

/-- _extract_title_words: split the lowered title on the separator class,
strip each piece, drop empties, stop words and one-character pieces, and
collect the normalized forms as a set (here: a duplicate-free list; the
callers use only membership counts). -/
def _extract_title_words (al : AliasMap) (title : String) : List String :=
  (pySplit isTitleSplitChar (pyLower title)).foldl
    (fun words w =>
      let word := pyStrip w
      if word ≠ "" && !(stop_words.contains word) && 1 < word.length then
        let n := normalize_skill al word
        if words.contains n then words else words ++ [n]
      else words) []

/-- Size of a set intersection, the left list being duplicate-free. -/
def setInter (a b : List String) : List String := a.filter (fun x => b.contains x)

/-- The keyword-overlap part of _title_similarity: best overlap fraction
over the two most recent experience titles (full weight) and the tagline
(0.8 weight), capped at 100. -/
def titleKeywordScore (al : AliasMap) (jd_words : List String)
    (resume : ParsedResume) : ℚ :=
  let fromExp := (resume.experience.take 2).foldl
    (fun ks exp =>
      let resume_words := _extract_title_words al exp.title
      if resume_words = [] then ks
      else max ks (((setInter jd_words resume_words).length : ℚ)
                    / (jd_words.length : ℚ) * 100)) 0
  let withTagline :=
    match resume.tagline with
    | some tg =>
      if tg = "" then fromExp
      else
        let tagline_words := _extract_title_words al tg
        max fromExp (((setInter jd_words tagline_words).length : ℚ)
                      / (max (jd_words.length : ℚ) 1) * 80)
    | none => fromExp
  min withTagline 100

/-- The candidate texts the semantic part of _title_similarity compares
against the JD title: the non-empty titles of the two most recent
experience entries, then the tagline when present and non-empty. -/
def titleCandidateTexts (resume : ParsedResume) : List String :=
  ((resume.experience.take 2).filter (fun exp => exp.title ≠ "")).map
      (fun exp => exp.title)
    ++ optStrParts resume.tagline

/-- Best oracle similarity over the candidate texts, starting from 0.0 and
skipping unavailable answers (exactly the best_sim loop of the source; an
empty candidate list leaves the 0.0 start value, which the caller treats
the same way as an unavailable oracle). -/
def titleBestSim (sim : SimOracle) (jd_title : String)
    (resume : ParsedResume) : ℚ :=
  (titleCandidateTexts resume).foldl
    (fun best t =>
      match sim jd_title t with
      | some s => max best s
      | none => best) 0

/-- _title_similarity: 20.0 without experience, 50.0 without extractable JD
title words, otherwise the 60/40 blend of semantic and keyword scores when
best_sim is positive and the keyword score alone otherwise. -/
def _title_similarity (sim : SimOracle) (al : AliasMap) (jd_title : String)
    (resume : ParsedResume) : ℚ :=
  if resume.experience = [] then 20
  else
    let jd_words := _extract_title_words al jd_title
    if jd_words = [] then 50
    else
      let keyword_score := titleKeywordScore al jd_words resume
      let best_sim := titleBestSim sim jd_title resume
      if 0 < best_sim then min (best_sim * 100 * 0.6 + keyword_score * 0.4) 100
      else keyword_score

/-- _experience_relevance: keyword coverage over the experience blob,
blended 50/50 with oracle similarity between the JD context and the blob
when the oracle answers. -/
def _experience_relevance (sim : SimOracle) (jd : ParsedJD)
    (resume : ParsedResume) : ℚ :=
  if resume.experience = [] then 0
  else
    let jd_keywords :=
      ((jd.keywords_to_match.map pyLower)
        ++ ((jd.required_skills ++ jd.preferred_skills).map pyLower)).foldl
        (fun s k => if s.contains k then s else s ++ [k]) []
    if jd_keywords = [] then 50
    else
      let exp_text := String.intercalate " "
        (resume.experience.flatMap fun exp =>
          pyLower exp.title :: exp.bullets.map pyLower)
      let hits := (jd_keywords.filter (fun kw => substr kw exp_text)).length
      let coverage : ℚ := (hits : ℚ) / (jd_keywords.length : ℚ)
      let keyword_score := min (coverage * 100) 100
      let ctx := if jd.key_responsibilities ≠ []
                 then String.intercalate " " jd.key_responsibilities else ""
      let jd_context := if ctx = ""
                        then String.intercalate " " jd.keywords_to_match else ctx
      match (if jd_context ≠ "" && exp_text ≠ "" then sim jd_context exp_text
             else none) with
      | some s => min (s * 100 * 0.5 + keyword_score * 0.5) 100
      | none => keyword_score

/-! ### Experience duration estimation -/

/-- Numeric value of four digit characters. -/
def yearVal (c1 c2 c3 c4 : Char) : Int :=
  1000 * (c1.toNat - 48) + 100 * (c2.toNat - 48) + 10 * (c3.toNat - 48)
    + (c4.toNat - 48)

/-- re.findall of the year pattern (20 or 19 followed by two digits):
non-overlapping leftmost matches, each converted to its integer value. -/
def findYearsGo (skip : Nat) : List Char → List Int
  | [] => []
  | c1 :: rest =>
    match skip with
    | n + 1 => findYearsGo n rest
    | 0 =>
      match rest with
      | c2 :: c3 :: c4 :: _ =>
        if ((c1 == '2' && c2 == '0') || (c1 == '1' && c2 == '9'))
            && c3.isDigit && c4.isDigit then
          yearVal c1 c2 c3 c4 :: findYearsGo 3 rest
        else findYearsGo 0 rest
      | _ => []

/-- Entry point of the year scan. -/
def findYears (l : List Char) : List Int := findYearsGo 0 l

/-- _parse_date_range_years: with two or more year tokens, the difference
between the last and the first, floored at 0.5; with a present/current
marker and one year token, current year minus that year, floored at 0.5;
with exactly one year token, 1.0; otherwise none. -/
def _parse_date_range_years (current_year : Int) (dates : String) : Option ℚ :=
  if dates = "" then none
  else
    let dates_lower := pyLower dates
    let years := findYears dates.toList
    if 2 ≤ years.length then
      some (max (1/2) (((years.getLast?.getD 0 - years.head?.getD 0 : Int)) : ℚ))
    else if (substr "present" dates_lower || substr "current" dates_lower)
            && 1 ≤ years.length then
      some (max (1/2) (((current_year - years.head?.getD 0 : Int)) : ℚ))
    else if years.length = 1 then some 1
    else none

/-- One step of the running total of _estimate_years; the Python guard
`if years:` skips both an unparsable entry and a 0.0 value. -/
def yearsStep (current_year : Int) (total : ℚ) (exp : ExperienceEntry) : ℚ :=
  match _parse_date_range_years current_year exp.dates with
  | some y => if y ≠ 0 then total + y else total
  | none => total

/-- _estimate_years: sum of per-entry estimates; none for an empty
experience list or a total that is not positive. -/
def _estimate_years (current_year : Int) (resume : ParsedResume) : Option ℚ :=
  if resume.experience = [] then none
  else
    let total := resume.experience.foldl (yearsStep current_year) 0
    if 0 < total then some total else none

/-- _years_fit, translated from the source. -/
def _years_fit (current_year : Int) (required_years : Option Int)
    (resume : ParsedResume) : ℚ :=
  match required_years with
  | none => 70
  | some required =>
    match _estimate_years current_year resume with
    | none => 50
    | some estimated =>
      if (required : ℚ) ≤ estimated then 100
      else if (required : ℚ) * 0.7 ≤ estimated then estimated / (required : ℚ) * 100
      else max (estimated / (required : ℚ) * 80) 10

/-- The years-experience-fit factor as section 4.4 of the specification
words it: 70.0 with no minimum, 50.0 when the estimate is unparsable,
100.0 at or above the requirement, candidate/required times 100 at or
above seventy percent of the requirement, and otherwise candidate/required
times 80 floored at 10.0. -/
def yearsFitSpec (current_year : Int) (required_years : Option Int)
    (resume : ParsedResume) : ℚ :=
  match required_years with
  | none => 70
  | some required =>
    match _estimate_years current_year resume with
    | none => 50
    | some candidate =>
      if (required : ℚ) ≤ candidate then 100
      else if (required : ℚ) * (70 / 100) ≤ candidate then
        candidate / (required : ℚ) * 100
      else max (candidate / (required : ℚ) * 80) 10

/-! ### Education match -/

/-- The degree-level lexicon of _education_match. -/
def degree_keywords : List (String × ℚ) :=
  [("phd", 100), ("doctorate", 100), ("ph.d", 100),
   ("master", 90), ("ms", 90), ("m.s.", 90), ("mba", 90),
   ("bachelor", 80), ("bs", 80), ("b.s.", 80), ("ba", 80), ("b.a.", 80)]

/-- Highest lexicon level found as a substring of the given lowered text. -/
def degreeLevel (text_lower : String) : ℚ :=
  degree_keywords.foldl
    (fun b kw => if substr kw.1 text_lower then max b kw.2 else b) 0

/-- _education_match, translated from the source. -/
def _education_match (jd_education : Option String)
    (resume : ParsedResume) : ℚ :=
  match jd_education with
  | none => 70
  | some ed =>
    if ed = "" then 70
    else if resume.education = [] then 20
    else
      let resume_degree_score := resume.education.foldl
        (fun best edu => max best (degreeLevel (pyLower edu.degree))) 0
      let required_score := degreeLevel (pyLower ed)
      if required_score = 0 then 70
      else if required_score ≤ resume_degree_score then 100
      else if 0 < resume_degree_score then 60
      else 30

/-! ### Aggregation -/

/-- The fixed weight table of the scorer. -/
def WEIGHTS : List (String × ℚ) :=
  [("required_skills", 0.35), ("preferred_skills", 0.15),
   ("title_alignment", 0.20), ("experience_relevance", 0.15),
   ("years_experience", 0.10), ("education", 0.05)]

/-- Dictionary lookup into WEIGHTS (every key the scorer uses is present). -/
def weight (k : String) : ℚ :=
  ((WEIGHTS.find? (fun p => p.1 == k)).map Prod.snd).getD 0

/-- The weighted sum computed at lines 92 to 99 of ats_scorer.py. -/
def weighted_total (a b c d e f : ℚ) : ℚ :=
  a * weight "required_skills" + b * weight "preferred_skills"
    + c * weight "title_alignment" + d * weight "experience_relevance"
    + e * weight "years_experience" + f * weight "education"

/-- Python round(x, 1): nearest tenth (no theorem below depends on the
behaviour at exact halves). -/
def round1 (x : ℚ) : ℚ := ((⌊x * 10 + 1/2⌋ : ℤ) : ℚ) / 10

/-- A single quotation mark, used by the knockout message text. -/
def squote : String := String.singleton (Char.ofNat 39)

/-- _build_knockouts: one alert per missing required skill; severity is
critical exactly when at least three required skills are missing.  (The
source also assigns a local severity variable inside the loop that is
never read; it has no effect on the result.) -/
def _build_knockouts (missing_required : List String) : List KnockoutAlert :=
  missing_required.foldl
    (fun alerts skill =>
      alerts ++ [{ skill := skill
                   severity := if 3 ≤ missing_required.length
                               then "critical" else "warning"
                   message := "Required skill " ++ squote ++ skill ++ squote
                                ++ " not found in resume" }]) []

/-- One step of the required-skills loop of score_resume: normalizer match
first, then full-text fallback, appending to the matched or missing list. -/
def splitStep (al : AliasMap) (resume : ParsedResume)
    (acc : List String × List String) (skill : String) :
    List String × List String :=
  if (find_matching_skill al skill resume.skills).isSome then
    (acc.1 ++ [skill], acc.2)
  else if _skill_in_text al skill resume then (acc.1 ++ [skill], acc.2)
  else (acc.1, acc.2 ++ [skill])

/-- The required-skills loop of score_resume (lines 52 to 64). -/
def splitBySkillMatch (al : AliasMap) (resume : ParsedResume)
    (skills : List String) : List String × List String :=
  skills.foldl (splitStep al resume) ([], [])

/-- The preferred-skills loop of score_resume (lines 68 to 75). -/
def matchedPreferredOf (al : AliasMap) (resume : ParsedResume)
    (skills : List String) : List String :=
  skills.foldl
    (fun acc skill =>
      if (find_matching_skill al skill resume.skills).isSome then acc ++ [skill]
      else if _skill_in_text al skill resume then acc ++ [skill]
      else acc) []

/-- Whether a required or preferred skill counts as matched: normalizer
match against the flat skill list, or full-text fallback. -/
def skillHit (al : AliasMap) (resume : ParsedResume) (skill : String) : Bool :=
  (find_matching_skill al skill resume.skills).isSome
    || _skill_in_text al skill resume

/-- score_resume, translated from the source. -/
def score_resume (sim : SimOracle) (al : AliasMap) (current_year : Int)
    (jd : ParsedJD) (resume : ParsedResume) : ResumeScore :=
  let mm := splitBySkillMatch al resume jd.required_skills
  let matched_required := mm.1
  let missing_required := mm.2
  let required_pct :=
    (matched_required.length : ℚ) / ((max jd.required_skills.length 1 : Nat) : ℚ) * 100
  let matched_preferred := matchedPreferredOf al resume jd.preferred_skills
  let preferred_pct :=
    (matched_preferred.length : ℚ) / ((max jd.preferred_skills.length 1 : Nat) : ℚ) * 100
  let title_pct := _title_similarity sim al jd.job_title resume
  let experience_pct := _experience_relevance sim jd resume
  let years_pct := _years_fit current_year jd.required_experience_years resume
  let education_pct := _education_match jd.education resume
  let overall := weighted_total required_pct preferred_pct title_pct
    experience_pct years_pct education_pct
  { resume_id := resume.id
    resume_name := resume.name
    file_name := resume.file_name
    overall_score := round1 overall
    breakdown :=
      { required_skills_pct := round1 required_pct
        preferred_skills_pct := round1 preferred_pct
        title_similarity_pct := round1 title_pct
        experience_relevance_pct := round1 experience_pct
        years_experience_fit_pct := round1 years_pct
        education_match_pct := round1 education_pct }
    knockout_alerts := _build_knockouts missing_required
    matched_required_skills := matched_required
    missing_required_skills := missing_required
    matched_preferred_skills := matched_preferred }

/-- Stable descending insertion by overall score: an element is placed
before the first strictly smaller key, after every key at least as large
coming from earlier input. -/
def insertByScoreDesc (s : ResumeScore) : List ResumeScore → List ResumeScore
  | [] => [s]
  | t :: ts =>
    if t.overall_score ≤ s.overall_score then s :: t :: ts
    else t :: insertByScoreDesc s ts

/-- The stable sort of rank_resumes (list.sort with reverse=True on the
overall score; Python timsort is stable, modelled by stable insertion). -/
def sortByScoreDesc : List ResumeScore → List ResumeScore
  | [] => []
  | s :: ss => insertByScoreDesc s (sortByScoreDesc ss)

/-- rank_resumes, translated from the source. -/
def rank_resumes (sim : SimOracle) (al : AliasMap) (current_year : Int)
    (jd : ParsedJD) (resumes : List ParsedResume) : RankingResponse :=
  let scores := sortByScoreDesc (resumes.map (score_resume sim al current_year jd))
  { jd_id := jd.id
    rankings := scores
    top_resume_id := match scores with | [] => "" | s :: _ => s.resume_id }

/-! ### Concrete fixtures used by counterexamples and witnesses -/

/-- An oracle that is always unavailable (embedding model absent). -/
def simNone : SimOracle := fun _ _ => none

/-- An available oracle that reports similarity 0 for every pair (cosine
similarity clamps to the range 0 to 1, and 0 is a reachable answer). -/
def simZero : SimOracle := fun _ _ => some 0

/-- An available oracle that reports similarity one half for every pair. -/
def simHalf : SimOracle := fun _ _ => some (1/2)

/-- A job description with empty required and preferred skill lists. -/
def jdNoSkills : ParsedJD :=
  { id := "jd0", job_title := "Engineer", company := "Acme",
    jd_type := JDType.fullstack, required_skills := [], preferred_skills := [],
    key_responsibilities := [], keywords_to_match := [], raw_text := "" }

/-- A minimal resume with no sections. -/
def resumeBasic : ParsedResume :=
  { id := "r1", file_name := "r1.pdf", file_hash := "h1",
    source := "local_upload", name := "Alex", contact := {}, raw_text := "" }

/-- A resume whose only occurrence of the letters g-o sits inside the word
going. -/
def resumeGoing : ParsedResume :=
  { id := "r2", file_name := "r2.pdf", file_hash := "h2",
    source := "local_upload", name := "Blake", contact := {}, raw_text := "",
    experience := [{ title := "Clerk", company := "Shop", dates := "",
                     bullets := ["I am going for a walk"] }] }

/-- A resume that mentions the language Go as a standalone word. -/
def resumeGoLang : ParsedResume :=
  { id := "r3", file_name := "r3.pdf", file_hash := "h3",
    source := "local_upload", name := "Casey", contact := {}, raw_text := "",
    experience := [{ title := "Dev", company := "X", dates := "",
                     bullets := ["proficient in Go and Python."] }] }

/-- A resume with a single experience entry dated Jan 2020 - Mar 2022. -/
def resumeJanMar : ParsedResume :=
  { id := "r4", file_name := "r4.pdf", file_hash := "h4",
    source := "local_upload", name := "Drew", contact := {}, raw_text := "",
    experience := [{ title := "Dev", company := "X",
                     dates := "Jan 2020 - Mar 2022", bullets := [] }] }

/-- The same resume with an extra entry whose dates cannot be parsed. -/
def resumeJanMarIntern : ParsedResume :=
  { id := "r5", file_name := "r5.pdf", file_hash := "h5",
    source := "local_upload", name := "Emery", contact := {}, raw_text := "",
    experience := [{ title := "Dev", company := "X",
                     dates := "Jan 2020 - Mar 2022", bullets := [] },
                   { title := "Intern", company := "Y",
                     dates := "Summer internship", bullets := [] }] }

/-- A resume whose most recent title matches the JD title word for word. -/
def resumeTitled : ParsedResume :=
  { id := "r6", file_name := "r6.pdf", file_hash := "h6",
    source := "local_upload", name := "Frankie", contact := {}, raw_text := "",
    experience := [{ title := "Software Engineer", company := "X",
                     dates := "", bullets := [] }] }

/-! ### Theorems -/

/-- C2: the short-skill word-boundary rule does not restrict matching: the
unconditional substring check at line 169 of ats_scorer.py fires first, so
the skill Go is counted as matched by a resume whose only occurrence of
the letters g-o sits inside the word going, even though the word-bounded
regex of lines 177 to 180 finds no match there; the positive example
(proficient in Go and Python.) matches as the claim says. -/
theorem short_skill_substring_overrides_word_bound :
    _skill_in_text [] "Go" resumeGoing = true
    ∧ reSearchWordBound (pyLower "Go") (resumeBlob resumeGoing) = false
    ∧ _skill_in_text [] "Go" resumeGoLang = true
    ∧ reSearchWordBound (pyLower "Go") (resumeBlob resumeGoLang) = true := by
  decide

/-- C3 counterexample: the entry dated Jan 2020 - Mar 2022 contributes 2.0
years (difference of the two year tokens), not the 26/12 = 2.2 the claim
derives from month granularity. -/
theorem janToMar_two_not_twoPointTwo :
    _estimate_years 2026 resumeJanMar = some 2
    ∧ _estimate_years 2026 resumeJanMar ≠ some 2.2 := by
  have hy : findYears "Jan 2020 - Mar 2022".toList = [2020, 2022] := by decide
  have hp : _parse_date_range_years 2026 "Jan 2020 - Mar 2022" = some 2 := by
    simp +decide only [_parse_date_range_years, hy]
    norm_num [max_def]
  have he : _estimate_years 2026 resumeJanMar = some 2 := by
    simp +decide only [_estimate_years, resumeJanMar, yearsStep,
      List.foldl_cons, List.foldl_nil, hp]
    norm_num
  refine ⟨he, ?_⟩
  rw [he]
  intro h
  have := Option.some.inj h
  norm_num at this

/-- C3 amended: the estimator works at whole-year granularity, for every
date string.  With years the list of 4-digit year tokens (19xx or 20xx,
leftmost non-overlapping): an empty string parses to nothing; two or more
tokens give max(0.5, last year minus first year), ignoring months; one
token next to a present/current marker gives max(0.5, current year minus
that year); one token without a marker gives 1.0; no token gives nothing.
The estimate is the plain sum of entry contributions (no division by 12,
no decimal rounding): appending an entry with unparsable dates changes no
estimate and raises no error.  In particular Jan 2020 - Mar 2022 yields
2.0 years, not 2.2, and Summer internship contributes nothing. -/
theorem estimate_years_year_granularity (cy : Int) :
    (_parse_date_range_years cy "" = none)
    ∧ (∀ d : String, d ≠ "" → 2 ≤ (findYears d.toList).length →
        _parse_date_range_years cy d
          = some (max (1/2)
              (((findYears d.toList).getLast?.getD 0
                  - (findYears d.toList).head?.getD 0 : Int) : ℚ)))
    ∧ (∀ d : String, d ≠ "" → (findYears d.toList).length = 1 →
        (substr "present" (pyLower d) || substr "current" (pyLower d)) = true →
        _parse_date_range_years cy d
          = some (max (1/2) ((cy - (findYears d.toList).head?.getD 0 : Int) : ℚ)))
    ∧ (∀ d : String, d ≠ "" → (findYears d.toList).length = 1 →
        (substr "present" (pyLower d) || substr "current" (pyLower d)) = false →
        _parse_date_range_years cy d = some 1)
    ∧ (∀ d : String, d ≠ "" → (findYears d.toList).length = 0 →
        _parse_date_range_years cy d = none)
    ∧ (∀ (r : ParsedResume) (e : ExperienceEntry),
        _parse_date_range_years cy e.dates = none →
        _estimate_years cy { r with experience := r.experience ++ [e] }
          = _estimate_years cy r)
    ∧ _parse_date_range_years cy "Jan 2020 - Mar 2022" = some 2
    ∧ _estimate_years cy resumeJanMar = some 2
    ∧ _parse_date_range_years cy "Summer internship" = none
    ∧ _estimate_years cy resumeJanMarIntern = some 2 := by
  have hy : findYears "Jan 2020 - Mar 2022".toList = [2020, 2022] := by decide
  have hp : _parse_date_range_years cy "Jan 2020 - Mar 2022" = some 2 := by
    simp +decide only [_parse_date_range_years, hy]
    norm_num [max_def]
  have hn : _parse_date_range_years cy "Summer internship" = none := by
    have hy2 : findYears "Summer internship".toList = [] := by decide
    have h1 : substr "present" (pyLower "Summer internship") = false := by decide
    have h2 : substr "current" (pyLower "Summer internship") = false := by decide
    simp +decide only [_parse_date_range_years, hy2, h1, h2]
    norm_num
  refine ⟨rfl, ?_, ?_, ?_, ?_, ?_, hp, ?_, hn, ?_⟩
  · intro d hd h2
    simp only [_parse_date_range_years, if_neg hd, if_pos h2]
  · intro d hd h1 hm
    simp only [_parse_date_range_years, if_neg hd, h1, hm]
    norm_num
  · intro d hd h1 hm
    simp only [_parse_date_range_years, if_neg hd, h1, hm]
    norm_num
  · intro d hd h0
    simp only [_parse_date_range_years, if_neg hd, h0]
    norm_num
  · intro r e hpe
    by_cases h : r.experience = []
    · simp [_estimate_years, yearsStep, hpe, h]
    · unfold _estimate_years
      have hproj : ({ r with experience := r.experience ++ [e] } :
          ParsedResume).experience = r.experience ++ [e] := rfl
      rw [hproj, if_neg (by simp : ¬(r.experience ++ [e] = [])), if_neg h]
      have hstep : (r.experience ++ [e]).foldl (yearsStep cy) 0
          = r.experience.foldl (yearsStep cy) 0 := by
        rw [List.foldl_append]
        simp only [List.foldl_cons, List.foldl_nil]
        unfold yearsStep
        simp only [hpe]
      rw [hstep]
  · simp +decide only [_estimate_years, resumeJanMar, yearsStep,
      List.foldl_cons, List.foldl_nil, hp]
    norm_num
  · simp +decide only [_estimate_years, resumeJanMarIntern, yearsStep,
      List.foldl_cons, List.foldl_nil, hp, hn]
    norm_num

/-- Witness for the C3 amended theorem: every branch rule applied at a
concrete date string (two tokens, a present marker with one token, one
bare token, no token), and the unparsable-entry rule applied to a
concrete resume and entry. -/
theorem estimate_years_year_granularity_inst :
    _parse_date_range_years 2026 "Jan 2020 - Mar 2022"
      = some (max (1/2)
          (((findYears "Jan 2020 - Mar 2022".toList).getLast?.getD 0
              - (findYears "Jan 2020 - Mar 2022".toList).head?.getD 0 : Int) : ℚ))
    ∧ _parse_date_range_years 2026 "2020 - Present"
      = some (max (1/2)
          ((2026 - (findYears "2020 - Present".toList).head?.getD 0 : Int) : ℚ))
    ∧ _parse_date_range_years 2026 "2021" = some 1
    ∧ _parse_date_range_years 2026 "Summer internship" = none
    ∧ _estimate_years 2026
        { resumeBasic with experience := resumeBasic.experience
            ++ [{ title := "Intern", company := "Y",
                  dates := "Summer internship", bullets := [] }] }
      = _estimate_years 2026 resumeBasic :=
  ⟨(estimate_years_year_granularity 2026).2.1 "Jan 2020 - Mar 2022"
      (by decide) (by decide),
   (estimate_years_year_granularity 2026).2.2.1 "2020 - Present"
      (by decide) (by decide) (by decide),
   (estimate_years_year_granularity 2026).2.2.2.1 "2021"
      (by decide) (by decide) (by decide),
   (estimate_years_year_granularity 2026).2.2.2.2.1 "Summer internship"
      (by decide) (by decide),
   (estimate_years_year_granularity 2026).2.2.2.2.2.1 resumeBasic
      { title := "Intern", company := "Y",
        dates := "Summer internship", bullets := [] }
      ((estimate_years_year_granularity 2026).2.2.2.2.1 "Summer internship"
        (by decide) (by decide))⟩

/-- C1 counterexample: with an empty required-skills list the required
factor is 0.0, not 100.0 (the ratio is 0 over the guarded denominator
max(0,1)); the preferred factor behaves the same way. -/
theorem empty_skill_lists_zero_not_hundred :
    (score_resume simNone [] 2026 jdNoSkills resumeBasic).breakdown.required_skills_pct = 0
    ∧ (score_resume simNone [] 2026 jdNoSkills resumeBasic).breakdown.required_skills_pct ≠ 100
    ∧ (score_resume simNone [] 2026 jdNoSkills resumeBasic).breakdown.preferred_skills_pct = 0
    ∧ (score_resume simNone [] 2026 jdNoSkills resumeBasic).breakdown.preferred_skills_pct ≠ 100 := by
  have h : (score_resume simNone [] 2026 jdNoSkills resumeBasic).breakdown.required_skills_pct = 0
      ∧ (score_resume simNone [] 2026 jdNoSkills resumeBasic).breakdown.preferred_skills_pct = 0 := by
    simp +decide only [score_resume, jdNoSkills, splitBySkillMatch,
      matchedPreferredOf, List.foldl_nil]
    norm_num [round1]
  exact ⟨h.1, by rw [h.1]; norm_num, h.2, by rw [h.2]; norm_num⟩

/-- C1 amended: for every job with an empty required-skills list the
required-skills factor of score_resume is exactly 0.0 (the zero-length
guard max(len, 1) makes the ratio 0, it does not treat the absent
requirement as satisfied); likewise the preferred-skills factor is exactly
0.0 for an empty preferred-skills list. -/
theorem empty_skill_lists_factor_zero (sim : SimOracle) (al : AliasMap)
    (cy : Int) (jd : ParsedJD) (r : ParsedResume) :
    (jd.required_skills = [] →
      (score_resume sim al cy jd r).breakdown.required_skills_pct = 0)
    ∧ (jd.preferred_skills = [] →
      (score_resume sim al cy jd r).breakdown.preferred_skills_pct = 0) := by
  constructor
  · intro h
    simp only [score_resume, h, splitBySkillMatch, List.foldl_nil]
    norm_num [round1]
  · intro h
    simp only [score_resume, h, matchedPreferredOf, List.foldl_nil]
    norm_num [round1]

/-- Witness for the C1 amended theorem at a concrete empty-skill job. -/
theorem empty_skill_lists_factor_zero_inst :
    (score_resume simNone [] 2026 jdNoSkills resumeBasic).breakdown.required_skills_pct = 0
    ∧ (score_resume simNone [] 2026 jdNoSkills resumeBasic).breakdown.preferred_skills_pct = 0 :=
  ⟨(empty_skill_lists_factor_zero simNone [] 2026 jdNoSkills resumeBasic).1 rfl,
   (empty_skill_lists_factor_zero simNone [] 2026 jdNoSkills resumeBasic).2 rfl⟩

/-- A left fold that appends one image per element is a map. -/
theorem foldl_append_map {α β : Type} (g : α → β) :
    ∀ (l : List α) (a : List β),
      l.foldl (fun acc s => acc ++ [g s]) a = a ++ l.map g
  | [], a => by simp
  | s :: t, a => by
    rw [List.foldl_cons, foldl_append_map g t (a ++ [g s])]
    simp

/-- The knockout builder in closed form. -/
theorem build_knockouts_eq (m : List String) :
    _build_knockouts m = m.map (fun skill =>
      { skill := skill
        severity := if 3 ≤ m.length then "critical" else "warning"
        message := "Required skill " ++ squote ++ skill ++ squote
                     ++ " not found in resume" }) := by
  unfold _build_knockouts
  rw [foldl_append_map]
  simp

/-- C4: knockout alerts carry exactly one entry per missing required
skill, in order, each with the message naming that skill, and severity is
one resume-wide decision: critical on every alert when at least three
required skills are missing, warning on every alert otherwise. -/
theorem build_knockouts_shape (m : List String) :
    (_build_knockouts m).length = m.length
    ∧ (_build_knockouts m).map KnockoutAlert.skill = m
    ∧ (_build_knockouts m).map KnockoutAlert.severity
        = m.map (fun _ => if 3 ≤ m.length then "critical" else "warning")
    ∧ (_build_knockouts m).map KnockoutAlert.message
        = m.map (fun s => "Required skill " ++ squote ++ s ++ squote
                            ++ " not found in resume") := by
  rw [build_knockouts_eq]
  refine ⟨by simp, ?_, ?_, ?_⟩ <;> simp [List.map_map, Function.comp_def]

/-- One step of the required-skills loop, phrased with the combined match
predicate. -/
theorem splitStep_eq (al : AliasMap) (r : ParsedResume)
    (acc : List String × List String) (skill : String) :
    splitStep al r acc skill =
      if skillHit al r skill then (acc.1 ++ [skill], acc.2)
      else (acc.1, acc.2 ++ [skill]) := by
  by_cases h1 : (find_matching_skill al skill r.skills).isSome = true
  · simp [splitStep, skillHit, h1]
  · by_cases h2 : _skill_in_text al skill r = true <;>
      simp [splitStep, skillHit, h1, h2]

/-- The required-skills loop splits the list into the matched and missing
sublists, in job-description order. -/
theorem splitFold (al : AliasMap) (r : ParsedResume) :
    ∀ (l : List String) (a b : List String),
      l.foldl (splitStep al r) (a, b)
        = (a ++ l.filter (skillHit al r),
           b ++ l.filter (fun s => !(skillHit al r s)))
  | [], a, b => by simp
  | s :: t, a, b => by
    rw [List.foldl_cons, splitStep_eq]
    cases h : skillHit al r s
    · rw [if_neg (by simp [h])]
      rw [splitFold al r t a (b ++ [s])]
      simp [List.filter_cons, h]
    · rw [if_pos (by simp [h])]
      rw [splitFold al r t (a ++ [s]) b]
      simp [List.filter_cons, h]

/-- splitBySkillMatch in closed form. -/
theorem splitBySkillMatch_eq (al : AliasMap) (r : ParsedResume)
    (l : List String) :
    splitBySkillMatch al r l
      = (l.filter (skillHit al r), l.filter (fun s => !(skillHit al r s))) := by
  unfold splitBySkillMatch
  rw [splitFold]
  simp

/-- C10: matched_required_skills and missing_required_skills form an
order-preserving partition of the required-skills list (the two filters by
the match predicate and its negation), and the knockout alerts name
exactly the missing skills, one alert each, in the same order, with the
message carrying the skill text. -/
theorem score_resume_partition_knockouts (sim : SimOracle) (al : AliasMap)
    (cy : Int) (jd : ParsedJD) (r : ParsedResume) :
    (score_resume sim al cy jd r).matched_required_skills
        = jd.required_skills.filter (skillHit al r)
    ∧ (score_resume sim al cy jd r).missing_required_skills
        = jd.required_skills.filter (fun sk => !(skillHit al r sk))
    ∧ (score_resume sim al cy jd r).knockout_alerts.map KnockoutAlert.skill
        = (score_resume sim al cy jd r).missing_required_skills
    ∧ (score_resume sim al cy jd r).knockout_alerts.map KnockoutAlert.message
        = (score_resume sim al cy jd r).missing_required_skills.map
            (fun sk => "Required skill " ++ squote ++ sk ++ squote
                         ++ " not found in resume") := by
  have hs := splitBySkillMatch_eq al r jd.required_skills
  have h1 : (score_resume sim al cy jd r).matched_required_skills
      = jd.required_skills.filter (skillHit al r) := by
    simp only [score_resume, hs]
  have h2 : (score_resume sim al cy jd r).missing_required_skills
      = jd.required_skills.filter (fun s => !(skillHit al r s)) := by
    simp only [score_resume, hs]
  have hk : (score_resume sim al cy jd r).knockout_alerts
      = _build_knockouts (jd.required_skills.filter (fun s => !(skillHit al r s))) := by
    simp only [score_resume, hs]
  refine ⟨h1, h2, ?_, ?_⟩ <;>
    · rw [hk, h2, build_knockouts_eq]
      simp [List.map_map, Function.comp_def]

/-- C6: the years-experience-fit factor of the source equals the piecewise
function the specification describes: 70.0 with no stated minimum, 50.0
when the candidate estimate is unparsable, 100.0 at or above the
requirement, candidate/required times 100 at or above seventy percent of
the requirement, and max(candidate/required times 80, 10.0) otherwise. -/
theorem years_fit_matches_plan (cy : Int) (req : Option Int)
    (r : ParsedResume) :
    _years_fit cy req r = yearsFitSpec cy req r := by
  have h07 : (70 / 100 : ℚ) = 0.7 := by norm_num
  unfold _years_fit yearsFitSpec
  cases req with
  | none => rfl
  | some required =>
    cases he : _estimate_years cy r with
    | none => rfl
    | some est => rw [h07]

/-- Every parsed date range contributes at least half a year. -/
theorem parse_ge_half (cy : Int) (d : String) (y : ℚ)
    (h : _parse_date_range_years cy d = some y) : (1/2 : ℚ) ≤ y := by
  simp only [_parse_date_range_years] at h
  split_ifs at h
  all_goals first
    | exact Option.noConfusion h
    | (rw [Option.some.injEq] at h
       subst h
       first
         | exact le_max_left _ _
         | norm_num)

/-- One estimator step never decreases the running total. -/
theorem yearsStep_ge (cy : Int) (acc : ℚ) (e : ExperienceEntry) :
    acc ≤ yearsStep cy acc e := by
  unfold yearsStep
  cases hp : _parse_date_range_years cy e.dates with
  | none => exact le_rfl
  | some y =>
    have hy := parse_ge_half cy e.dates y hp
    simp only []
    split_ifs with h0
    · linarith
    · exact le_rfl

/-- The running total of the estimator never decreases along the fold. -/
theorem foldl_yearsStep_ge (cy : Int) :
    ∀ (l : List ExperienceEntry) (acc : ℚ),
      acc ≤ l.foldl (yearsStep cy) acc
  | [], _ => le_rfl
  | e :: t, acc =>
    le_trans (yearsStep_ge cy acc e) (foldl_yearsStep_ge cy t _)

/-- One parsed entry pushes the fold at least half a year above the
starting total. -/
theorem foldl_yearsStep_mem (cy : Int) :
    ∀ (l : List ExperienceEntry) (acc : ℚ) (e : ExperienceEntry) (y : ℚ),
      e ∈ l → _parse_date_range_years cy e.dates = some y →
      acc + 1/2 ≤ l.foldl (yearsStep cy) acc := by
  intro l
  induction l with
  | nil => intro acc e y he _; exact absurd he (List.not_mem_nil e)
  | cons s t ih =>
    intro acc e y he hp
    rw [List.foldl_cons]
    rcases List.mem_cons.mp he with rfl | ht
    · have hhalf := parse_ge_half cy e.dates y hp
      have hstep : acc + 1/2 ≤ yearsStep cy acc e := by
        unfold yearsStep
        simp only [hp]
        rw [if_pos (by intro h0; rw [h0] at hhalf; norm_num at hhalf)]
        linarith
      exact le_trans hstep (foldl_yearsStep_ge cy t _)
    · have hih := ih (yearsStep cy acc s) e y ht hp
      have hmono := yearsStep_ge cy acc s
      linarith

/-- When every entry is unparsable the fold leaves the total unchanged. -/
theorem foldl_yearsStep_allnone (cy : Int) :
    ∀ (l : List ExperienceEntry) (acc : ℚ),
      (∀ e ∈ l, _parse_date_range_years cy e.dates = none) →
      l.foldl (yearsStep cy) acc = acc
  | [], _, _ => rfl
  | s :: t, acc, h => by
    rw [List.foldl_cons]
    have hs : yearsStep cy acc s = acc := by
      unfold yearsStep
      rw [h s (by simp)]
    rw [hs]
    exact foldl_yearsStep_allnone cy t acc (fun e he => h e (by simp [he]))

/-- C8: the estimator answers none exactly when every experience entry
fails to parse.  In particular a zero-or-negative total with a parsed
entry cannot occur: any parsed entry contributes at least 0.5 years, so
whenever one entry parses the estimator returns its positive total. -/
theorem estimate_years_none_iff_all_unparsed (cy : Int) (r : ParsedResume) :
    _estimate_years cy r = none
      ↔ ∀ e ∈ r.experience, _parse_date_range_years cy e.dates = none := by
  unfold _estimate_years
  by_cases hexp : r.experience = []
  · simp [hexp]
  · rw [if_neg hexp]
    constructor
    · intro h e he
      cases hp : _parse_date_range_years cy e.dates with
      | none => rfl
      | some y =>
        have hpos := foldl_yearsStep_mem cy r.experience 0 e y he hp
        rw [if_pos (by linarith)] at h
        exact Option.noConfusion h
    · intro hall
      rw [foldl_yearsStep_allnone cy r.experience 0 hall]
      norm_num

/-- C9: with the fixed weight table (0.35, 0.15, 0.20, 0.15, 0.10, 0.05,
summing to one) the weighted overall score of any six component scores in
the range 0 to 100 stays in the range 0 to 100. -/
theorem weighted_total_in_range (a b c d e f : ℚ)
    (ha : 0 ≤ a ∧ a ≤ 100) (hb : 0 ≤ b ∧ b ≤ 100) (hc : 0 ≤ c ∧ c ≤ 100)
    (hd : 0 ≤ d ∧ d ≤ 100) (he : 0 ≤ e ∧ e ≤ 100) (hf : 0 ≤ f ∧ f ≤ 100) :
    (weight "required_skills" + weight "preferred_skills"
        + weight "title_alignment" + weight "experience_relevance"
        + weight "years_experience" + weight "education" = 1)
    ∧ 0 ≤ weighted_total a b c d e f
    ∧ weighted_total a b c d e f ≤ 100 := by
  obtain ⟨ha1, ha2⟩ := ha
  obtain ⟨hb1, hb2⟩ := hb
  obtain ⟨hc1, hc2⟩ := hc
  obtain ⟨hd1, hd2⟩ := hd
  obtain ⟨he1, he2⟩ := he
  obtain ⟨hf1, hf2⟩ := hf
  have w1 : weight "required_skills" = 0.35 := rfl
  have w2 : weight "preferred_skills" = 0.15 := rfl
  have w3 : weight "title_alignment" = 0.20 := rfl
  have w4 : weight "experience_relevance" = 0.15 := rfl
  have w5 : weight "years_experience" = 0.10 := rfl
  have w6 : weight "education" = 0.05 := rfl
  refine ⟨by rw [w1, w2, w3, w4, w5, w6]; norm_num, ?_, ?_⟩ <;>
    · unfold weighted_total
      rw [w1, w2, w3, w4, w5, w6]
      norm_num
      linarith

/-- Unfolding equation of the insertion at a cons cell. -/
theorem insertByScoreDesc_cons (s t : ResumeScore) (ts : List ResumeScore) :
    insertByScoreDesc s (t :: ts)
      = if t.overall_score ≤ s.overall_score then s :: t :: ts
        else t :: insertByScoreDesc s ts := rfl

/-- Insertion grows the length by one. -/
theorem insertByScoreDesc_length (s : ResumeScore) :
    ∀ l, (insertByScoreDesc s l).length = l.length + 1
  | [] => rfl
  | t :: ts => by
    unfold insertByScoreDesc
    split_ifs
    · rfl
    · simp [insertByScoreDesc_length s ts]

/-- The sort preserves length. -/
theorem sortByScoreDesc_length : ∀ l, (sortByScoreDesc l).length = l.length
  | [] => rfl
  | s :: ss => by
    unfold sortByScoreDesc
    rw [insertByScoreDesc_length, sortByScoreDesc_length ss]
    rfl

/-- Membership after insertion. -/
theorem insertByScoreDesc_mem (s x : ResumeScore) :
    ∀ l, x ∈ insertByScoreDesc s l ↔ x = s ∨ x ∈ l
  | [] => by simp [insertByScoreDesc]
  | t :: ts => by
    unfold insertByScoreDesc
    split_ifs
    · simp
    · rw [List.mem_cons, insertByScoreDesc_mem s x ts, List.mem_cons]
      tauto

/-- Insertion keeps the list sorted by non-increasing overall score. -/
theorem insertByScoreDesc_sorted (s : ResumeScore) :
    ∀ l, l.Pairwise (fun a b => b.overall_score ≤ a.overall_score) →
      (insertByScoreDesc s l).Pairwise
        (fun a b => b.overall_score ≤ a.overall_score)
  | [], _ => by simp [insertByScoreDesc]
  | t :: ts, h => by
    unfold insertByScoreDesc
    rcases List.pairwise_cons.mp h with ⟨ht, hts⟩
    split_ifs with hc
    · refine List.pairwise_cons.mpr ⟨?_, h⟩
      intro x hx
      rcases List.mem_cons.mp hx with rfl | hxts
      · exact hc
      · exact le_trans (ht x hxts) hc
    · refine List.pairwise_cons.mpr ⟨?_, insertByScoreDesc_sorted s ts hts⟩
      intro x hx
      rcases (insertByScoreDesc_mem s x ts).mp hx with rfl | hxts
      · exact le_of_not_le hc
      · exact ht x hxts

/-- The sort produces a non-increasing list. -/
theorem sortByScoreDesc_sorted :
    ∀ l, (sortByScoreDesc l).Pairwise
      (fun a b => b.overall_score ≤ a.overall_score)
  | [] => List.Pairwise.nil
  | s :: ss => insertByScoreDesc_sorted s _ (sortByScoreDesc_sorted ss)

/-- Stability of insertion: for every key, insertion of an element with
that key puts it in front of the equal-key sublist, and insertion of any
other element leaves the equal-key sublist unchanged. -/
theorem insertByScoreDesc_filter (s : ResumeScore) (k : ℚ) :
    ∀ l, (insertByScoreDesc s l).filter (fun t => decide (t.overall_score = k))
      = if s.overall_score = k
        then s :: l.filter (fun t => decide (t.overall_score = k))
        else l.filter (fun t => decide (t.overall_score = k))
  | [] => by
    by_cases hs : s.overall_score = k <;>
      simp [insertByScoreDesc, List.filter_cons, hs]
  | t :: ts => by
    by_cases hc : t.overall_score ≤ s.overall_score
    · rw [insertByScoreDesc_cons, if_pos hc]
      by_cases hs : s.overall_score = k
      · rw [if_pos hs]
        simp [List.filter_cons, hs]
      · rw [if_neg hs]
        simp [List.filter_cons, hs]
    · rw [insertByScoreDesc_cons, if_neg hc]
      have hrec := insertByScoreDesc_filter s k ts
      by_cases ht : t.overall_score = k
      · have hs : ¬ s.overall_score = k := by
          intro hh
          refine hc ?_
          rw [ht, hh]
        rw [if_neg hs]
        rw [if_neg hs] at hrec
        simp [List.filter_cons, ht, hrec]
      · by_cases hs : s.overall_score = k
        · rw [if_pos hs]
          rw [if_pos hs] at hrec
          simp [List.filter_cons, ht, hrec]
        · rw [if_neg hs]
          rw [if_neg hs] at hrec
          simp [List.filter_cons, ht, hrec]

/-- Stability of the sort: for every key, the sublist of entries carrying
that key is exactly the input sublist with that key, in input order. -/
theorem sortByScoreDesc_filter (k : ℚ) :
    ∀ l, (sortByScoreDesc l).filter (fun t => decide (t.overall_score = k))
      = l.filter (fun t => decide (t.overall_score = k))
  | [] => rfl
  | s :: ss => by
    unfold sortByScoreDesc
    rw [insertByScoreDesc_filter, sortByScoreDesc_filter k ss]
    by_cases hs : s.overall_score = k <;> simp [List.filter_cons, hs]

/-- C5: rank_resumes returns exactly one scored entry per input resume,
sorted non-increasing by overall score with a stable sort (for every key,
ties keep the relative order of the scored inputs), its top_resume_id is
the first identity of the ranking, and the empty input yields an empty
ranking with an empty top id without raising. -/
theorem rank_resumes_sorted_stable_total (sim : SimOracle) (al : AliasMap)
    (cy : Int) (jd : ParsedJD) (resumes : List ParsedResume) :
    (rank_resumes sim al cy jd resumes).rankings.length = resumes.length
    ∧ (rank_resumes sim al cy jd resumes).rankings.Pairwise
        (fun a b => b.overall_score ≤ a.overall_score)
    ∧ (∀ k : ℚ, (rank_resumes sim al cy jd resumes).rankings.filter
          (fun t => decide (t.overall_score = k))
        = (resumes.map (score_resume sim al cy jd)).filter
            (fun t => decide (t.overall_score = k)))
    ∧ (rank_resumes sim al cy jd resumes).top_resume_id
        = (match (rank_resumes sim al cy jd resumes).rankings with
           | [] => "" | s :: _ => s.resume_id)
    ∧ (rank_resumes sim al cy jd []).rankings = []
    ∧ (rank_resumes sim al cy jd []).top_resume_id = ""
    ∧ (rank_resumes sim al cy jd resumes).jd_id = jd.id := by
  refine ⟨?_, ?_, ?_, rfl, rfl, rfl, rfl⟩
  · simp only [rank_resumes]
    rw [sortByScoreDesc_length]
    simp
  · exact sortByScoreDesc_sorted _
  · intro k
    exact sortByScoreDesc_filter k _

/-- Witness for the C9 theorem at six concrete component scores. -/
theorem weighted_total_in_range_inst :
    (weight "required_skills" + weight "preferred_skills"
        + weight "title_alignment" + weight "experience_relevance"
        + weight "years_experience" + weight "education" = 1)
    ∧ 0 ≤ weighted_total 50 60 70 80 90 100
    ∧ weighted_total 50 60 70 80 90 100 ≤ 100 :=
  weighted_total_in_range 50 60 70 80 90 100
    ⟨by norm_num, by norm_num⟩ ⟨by norm_num, by norm_num⟩
    ⟨by norm_num, by norm_num⟩ ⟨by norm_num, by norm_num⟩
    ⟨by norm_num, by norm_num⟩ ⟨by norm_num, by norm_num⟩

/-- A left fold whose step never decreases the accumulator keeps it at or
above the starting value. -/
theorem foldl_start_le {α : Type} (f : ℚ → α → ℚ)
    (hstep : ∀ acc x, acc ≤ f acc x) :
    ∀ (l : List α) (acc : ℚ), acc ≤ l.foldl f acc
  | [], _ => le_rfl
  | x :: t, acc => le_trans (hstep acc x) (foldl_start_le f hstep t _)

/-- The best oracle similarity is never below its 0.0 start value. -/
theorem titleBestSim_nonneg (sim : SimOracle) (t : String) (r : ParsedResume) :
    0 ≤ titleBestSim sim t r := by
  unfold titleBestSim
  apply foldl_start_le
  intro acc x
  cases h : sim t x with
  | none => simp [h]
  | some s =>
    simp only [h]
    exact le_max_left _ _

/-- The keyword part of the title factor lies between 0 and 100. -/
theorem titleKeywordScore_bounds (al : AliasMap) (w : List String)
    (r : ParsedResume) :
    0 ≤ titleKeywordScore al w r ∧ titleKeywordScore al w r ≤ 100 := by
  have hexp : (0:ℚ) ≤ (r.experience.take 2).foldl
      (fun ks exp =>
        let resume_words := _extract_title_words al exp.title
        if resume_words = [] then ks
        else max ks (((setInter w resume_words).length : ℚ)
                      / (w.length : ℚ) * 100)) 0 := by
    apply foldl_start_le
    intro acc x
    dsimp only
    split_ifs
    · exact le_rfl
    · exact le_max_left _ _
  constructor
  · unfold titleKeywordScore
    refine le_min ?_ (by norm_num)
    cases htg : r.tagline with
    | none => simpa [htg] using hexp
    | some tg =>
      simp only [htg]
      split_ifs
      · exact hexp
      · exact le_trans hexp (le_max_left _ _)
  · unfold titleKeywordScore
    exact min_le_right _ _

/-- C7 counterexample: with an available oracle that reports similarity 0
for the one compared candidate text, the title factor equals the keyword
score alone (here 100), not the blended formula of the claim (here
min(0.6 by 0 + 0.4 by 100, 100) = 40): the source only blends when its
best similarity is strictly positive. -/
theorem title_blend_zero_sim_cex :
    _title_similarity simZero [] "Software Engineer" resumeTitled = 100
    ∧ titleBestSim simZero "Software Engineer" resumeTitled = 0
    ∧ titleKeywordScore [] (_extract_title_words [] "Software Engineer")
        resumeTitled = 100
    ∧ min (0.6 * (titleBestSim simZero "Software Engineer" resumeTitled * 100)
            + 0.4 * titleKeywordScore []
                (_extract_title_words [] "Software Engineer") resumeTitled) 100
        ≠ (100 : ℚ) := by
  have hwords : _extract_title_words [] "Software Engineer"
      = ["software", "engineer"] := by decide
  have hbest : titleBestSim simZero "Software Engineer" resumeTitled = 0 := by
    simp [titleBestSim, titleCandidateTexts, resumeTitled, optStrParts, simZero]
  have hkw : titleKeywordScore [] (_extract_title_words [] "Software Engineer")
      resumeTitled = 100 := by
    rw [hwords]
    simp +decide only [titleKeywordScore, resumeTitled, List.take,
      List.foldl_cons, List.foldl_nil, hwords]
    norm_num [setInter, max_def]
  have hmain : _title_similarity simZero [] "Software Engineer" resumeTitled
      = 100 := by
    have hne : ¬(resumeTitled.experience = []) := by decide
    have hne2 : ¬(_extract_title_words [] "Software Engineer" = []) := by decide
    simp only [_title_similarity, if_neg hne, if_neg hne2, hbest]
    rw [if_neg (by norm_num)]
    exact hkw
  refine ⟨hmain, hbest, hkw, ?_⟩
  rw [hbest, hkw]
  norm_num

/-- C7 amended: when the best oracle similarity over the compared
candidate texts is strictly positive, the title factor is
min(0.6 by (best by 100) + 0.4 by keyword, 100); when the oracle is
unavailable, reports no positive similarity, or there is no candidate
text, the factor is the keyword score alone, and in every such case the
factor is a complete valid score between 0 and 100. -/
theorem title_similarity_blend_cases (sim : SimOracle) (al : AliasMap)
    (t : String) (r : ParsedResume)
    (hexp : r.experience ≠ []) (hw : _extract_title_words al t ≠ []) :
    _title_similarity sim al t r
      = (if 0 < titleBestSim sim t r
         then min (0.6 * (titleBestSim sim t r * 100)
                    + 0.4 * titleKeywordScore al (_extract_title_words al t) r) 100
         else titleKeywordScore al (_extract_title_words al t) r)
    ∧ 0 ≤ _title_similarity sim al t r
    ∧ _title_similarity sim al t r ≤ 100 := by
  have hb0 := titleBestSim_nonneg sim t r
  have hkb := titleKeywordScore_bounds al (_extract_title_words al t) r
  have heq : _title_similarity sim al t r
      = (if 0 < titleBestSim sim t r
         then min (titleBestSim sim t r * 100 * 0.6
                    + titleKeywordScore al (_extract_title_words al t) r * 0.4) 100
         else titleKeywordScore al (_extract_title_words al t) r) := by
    simp only [_title_similarity, if_neg hexp, if_neg hw]
  refine ⟨?_, ?_, ?_⟩
  · rw [heq]
    split_ifs with h
    · congr 1
      ring
    · rfl
  · rw [heq]
    split_ifs with h
    · refine le_min ?_ (by norm_num)
      linarith [hkb.1]
    · exact hkb.1
  · rw [heq]
    split_ifs with h
    · exact min_le_right _ _
    · exact hkb.2

/-- Witness for the C7 amended theorem at a concrete available oracle. -/
theorem title_similarity_blend_cases_inst :
    _title_similarity simHalf [] "Software Engineer" resumeTitled
      = (if 0 < titleBestSim simHalf "Software Engineer" resumeTitled
         then min (0.6 * (titleBestSim simHalf "Software Engineer" resumeTitled * 100)
                    + 0.4 * titleKeywordScore []
                        (_extract_title_words [] "Software Engineer") resumeTitled) 100
         else titleKeywordScore []
                (_extract_title_words [] "Software Engineer") resumeTitled)
    ∧ 0 ≤ _title_similarity simHalf [] "Software Engineer" resumeTitled
    ∧ _title_similarity simHalf [] "Software Engineer" resumeTitled ≤ 100 :=
  title_similarity_blend_cases simHalf [] "Software Engineer" resumeTitled
    (by decide) (by decide)

end ATS
